import Mathlib

/-!
Verification of the Backbeat ingestion pipeline against its specification.

The definitions below are shallow embeddings of the JavaScript source:
* `lib/queuePopulator/IngestionReader.js` (batch cycle: read, prepare,
  publish, checkpoint),
* the `IngestionProducer` (snapshot producer and raft-log reader),
* `lib/KafkaBacklogMetrics.js` (consumer backlog and lag checks),
* `extensions/utils/RaftLogEntry.js` (canonical put events).

JavaScript-specific behaviour (truthiness, `null + n` coercion, property
access on `undefined` throwing a `TypeError`, absent vs `null` fields) is
modelled explicitly where the control flow depends on it.
-/

namespace Backbeat

/-- Runtime failures surfaced by the embedded code: `typeError` models a
JavaScript `TypeError` (for example a property access on `undefined`),
`internalError` models arsenal's `errors.InternalError`. -/
inductive JsError
  | typeError
  | internalError
deriving Repr, DecidableEq

/-- JavaScript `+` whose left operand may be `null` (`none`): `null` coerces
to `0`, as in `logRes.info.start + logStats.nbLogRecordsRead` when
`info.start` is `null` (the 404/416 empty read). -/
def jsAddNullable (a : Option Int) (b : Int) : Int :=
  a.getD 0 + b

/-- One `entry` of a log record: `{type?, key?, value?}`; absent fields are
`none`. Legacy records without a `db` carry a `bucket` field on the entry. -/
structure Entry where
  type : Option String
  key : Option String
  value : Option String
  bucket : Option String
deriving Repr, DecidableEq

/-- A record-log batch `{ db?, entries[] }`. -/
structure LogRecord where
  db : Option String
  entries : List Entry
deriving Repr, DecidableEq

/-- Argument of an extension `filter({type, bucket, key, value})` call. -/
structure FilterCall where
  type : Option String
  bucket : Option String
  key : Option String
  value : Option String
deriving Repr, DecidableEq

/-- Shallow embedding of `IngestionReader._processLogEntry`.

Mirrors the source: an entry with neither `key` nor `type` is dropped
(`.ok none`); records without `db` pass the entry fields through; otherwise
the `db`-based rewrite applies:
* `db === 'users..bucket'`: `key = keySplit[0] + '..|..' + targetZenkoBucket`
  where `keySplit = entry.key.split('..|..')`;
* `db === 'metastore'`: `key = keySplit[0] + '/' + targetZenkoBucket`
  where `keySplit = entry.key.split('/')`;
* otherwise: `db` becomes `targetZenkoBucket`, and the key passes through
  except when `record.db === entry.key`, in which case the key also becomes
  `targetZenkoBucket`.
In the two split branches the JavaScript code dereferences `entry.key`, so an
absent key throws a `TypeError` there. -/
def processLogEntry (targetZenkoBucket : String) (recordDb : Option String)
    (entry : Entry) : Except JsError (Option FilterCall) :=
  if entry.key = none ∧ entry.type = none then
    .ok none
  else
    match recordDb with
    | none =>
      .ok (some { type := entry.type, bucket := entry.bucket,
                  key := entry.key, value := entry.value })
    | some db =>
      if db = "users..bucket" then
        match entry.key with
        | none => .error .typeError
        | some k =>
          .ok (some { type := entry.type, bucket := some db,
                      key := some ((k.splitOn "..|..").headD "" ++ "..|.."
                        ++ targetZenkoBucket),
                      value := entry.value })
      else if db = "metastore" then
        match entry.key with
        | none => .error .typeError
        | some k =>
          .ok (some { type := entry.type, bucket := some db,
                      key := some ((k.splitOn "/").headD "" ++ "/"
                        ++ targetZenkoBucket),
                      value := entry.value })
      else
        .ok (some { type := entry.type, bucket := some targetZenkoBucket,
                    key := if entry.key = some db then some targetZenkoBucket
                           else entry.key,
                    value := entry.value })

/-- Filter calls staged for one tail-phase record in
`IngestionReader._processPrepareEntries`: the entries of a record are passed
to `_processLogEntry` only when `record.db === this.bucket` (the source
bucket). -/
def tailRecordFilterCalls (sourceBucket targetZenkoBucket : String)
    (record : LogRecord) : Except JsError (List FilterCall) :=
  record.entries.foldlM (fun acc entry =>
    if record.db = some sourceBucket then do
      let fc ← processLogEntry targetZenkoBucket record.db entry
      pure (acc ++ fc.toList)
    else
      pure acc) []

/-- The batch counters of `batchState.logStats`. -/
structure LogStats where
  nbLogRecordsRead : Int
  nbLogEntriesRead : Int
deriving Repr, DecidableEq

/-- One `data` event of the tail stream in `_processPrepareEntries`:
`logStats.nbLogRecordsRead += 1`, and each entry of the record adds one to
`logStats.nbLogEntriesRead`. -/
def tailRecordStats (stats : LogStats) (record : LogRecord) : LogStats :=
  { nbLogRecordsRead := stats.nbLogRecordsRead + 1,
    nbLogEntriesRead := stats.nbLogEntriesRead + record.entries.length }

/-- The counters after the tail stream delivered `records` and ended. -/
def tailStats (records : List LogRecord) : LogStats :=
  records.foldl tailRecordStats { nbLogRecordsRead := 0, nbLogEntriesRead := 0 }

/-- The `initState` object a snapshot result may carry (claimed shape). -/
structure SnapshotInitState where
  isStatusComplete : Bool
  keyMarker : Option String
  versionMarker : Option String
  cseq : Option Int
deriving Repr, DecidableEq

/-- The `nextLogOffset` staging rule at the top of
`IngestionReader._processPublishEntries`:
`if (initState && initState.cseq) { nextLogOffset = initState.cseq }` and
`if (!initState) { nextLogOffset = logRes.info.start + nbLogRecordsRead }`.
JavaScript truthiness: a `cseq` of `0` (or an absent one) leaves
`nextLogOffset` unset when `initState` is present. -/
def stageNextLogOffset (initState : Option SnapshotInitState)
    (infoStart : Option Int) (nbLogRecordsRead : Int) : Option Int :=
  match initState with
  | some st =>
    match st.cseq with
    | some c => if c ≠ 0 then some c else none
    | none => none
  | none => some (jsAddNullable infoStart nbLogRecordsRead)

/-- The JavaScript object `batchState.entriesToPublish` (created as `{}` in
`processLogEntries`) as an association list from bucket name to staged
entries; an absent key reads as `undefined`. -/
abbrev EntryBatch := List (String × List FilterCall)

/-- Outcome of a successful `_processPublishEntries`. -/
structure PublishResult where
  nextLogOffset : Option Int
  publishedEntries : Nat
deriving Repr, DecidableEq

/-- Shallow embedding of `IngestionReader._processPublishEntries` with the
bus producer assumed to succeed: stage `nextLogOffset`, then read
`entriesToPublish[this._targetZenkoBucket]` and take its `.length`. When no
entry was staged for the target bucket the property access yields
`undefined`, and `entries.length` throws a `TypeError`. -/
def processPublishEntries (targetZenkoBucket : String)
    (initState : Option SnapshotInitState) (infoStart : Option Int)
    (stats : LogStats) (entriesToPublish : EntryBatch) :
    Except JsError PublishResult :=
  let nextLogOffset := stageNextLogOffset initState infoStart
    stats.nbLogRecordsRead
  match entriesToPublish.lookup targetZenkoBucket with
  | none => .error .typeError
  | some entries =>
    .ok { nextLogOffset := nextLogOffset, publishedEntries := entries.length }

/-- Modelled from the spec: `LogReader._writeLogOffset` lives in the parent
`LogReader` class, which is not under src/. Per the spec's Progress Store,
the log-offset node stores the reader's integer offset; the write persists
the reader's current in-memory `logOffset`. -/
def writeLogOffset (logOffset : Int) : Int :=
  logOffset

/-- Outcome of the checkpoint phase for the log offset: the new in-memory
`this.logOffset`, whether the Coordinator node was written, and the value
written to it. -/
structure SaveLogOffsetResult where
  logOffset : Int
  wroteNode : Bool
  writtenValue : Option Int
deriving Repr, DecidableEq

/-- Shallow embedding of the offset part of
`IngestionReader._processSaveLogOffset`: when `batchState.nextLogOffset` is
defined and differs from `this.logOffset`, the in-memory offset is raised
only when the staged value is strictly greater, and `_writeLogOffset` is
called (in both cases). Otherwise nothing is written. -/
def processSaveLogOffset (logOffset : Int) (nextLogOffset : Option Int) :
    SaveLogOffsetResult :=
  match nextLogOffset with
  | some n =>
    if n ≠ logOffset then
      let newOffset := if n > logOffset then n else logOffset
      { logOffset := newOffset, wroteNode := true,
        writtenValue := some (writeLogOffset newOffset) }
    else
      { logOffset := logOffset, wroteNode := false, writtenValue := none }
  | none =>
    { logOffset := logOffset, wroteNode := false, writtenValue := none }

/-- The in-memory `logOffset` after a sequence of completed batch cycles,
each staging the given `nextLogOffset`. -/
def runSaveLogOffsets (logOffset : Int) (nexts : List (Option Int)) : Int :=
  nexts.foldl (fun off n => (processSaveLogOffset off n).logOffset) logOffset

/-- The `{res, objectKey, bucketName}` tuple assembled per object by
`IngestionProducer._getBucketObjectsMetadata`; `res` stands for the opaque
metadata (its `JSON.stringify` image). -/
structure ObjectMd where
  bucketName : String
  objectKey : String
  res : String
deriving Repr, DecidableEq

/-- A canonical put event as pushed on `resLog`. -/
structure PutEvent where
  type : String
  bucket : String
  key : String
  value : String
deriving Repr, DecidableEq

/-- `RaftLogEntry.createPutEntry(objectMd, bucketPrefix)`:
`{type: 'put', bucket: bucketPrefix + '-' + objectMd.bucketName,
key: objectMd.objectKey, value: JSON.stringify(objectMd.res)}`. -/
def createPutEntry (objectMd : ObjectMd) (targetZenkoBucket : String) :
    PutEvent :=
  { type := "put",
    bucket := targetZenkoBucket ++ "-" ++ objectMd.bucketName,
    key := objectMd.objectKey,
    value := objectMd.res }

/-- The `IngestionProducer` instance state relevant to `snapshot`: the
`resLog` array, set to `[]` in the constructor and never reset afterwards. -/
structure ProducerState where
  resLog : List PutEvent
deriving Repr, DecidableEq

/-- `IngestionProducer._createAndPushEntry(objectMds, done)`: pushes one
`createPutEntry` per object metadata onto `this.resLog`. -/
def createAndPushEntry (st : ProducerState) (objectMds : List ObjectMd)
    (targetZenkoBucket : String) : ProducerState :=
  { resLog := st.resLog
      ++ objectMds.map (fun md => createPutEntry md targetZenkoBucket) }

/-- `IngestionProducer.snapshot(bucketName, done)`: lists the bucket's
objects, fetches their metadata (`bucketObjects` is the resulting tuple
list), pushes the put events onto `this.resLog`, and invokes the callback
with `(err, this.resLog)` — the bare accumulated array. The function accepts
no `initState` argument and its result carries no `initState` and no
`cseq`. -/
def snapshot (st : ProducerState) (targetZenkoBucket : String)
    (bucketObjects : List ObjectMd) : ProducerState × List PutEvent :=
  let pushed := createAndPushEntry st bucketObjects targetZenkoBucket
  (pushed, pushed.resLog)

/-- `IngestionReader._processReadRecords` (snapshot branch) reads
`res.initState` from the snapshot callback result; the result is a
JavaScript array, which has no `initState` property, so the read yields
`undefined`. -/
def snapshotResultInitState (res : List PutEvent) :
    Option SnapshotInitState :=
  match res with
  | _ => none

/-- Likewise, the reader's `logRes = { info: { start: 1 }, log: res.logRes }`
reads `res.logRes` from the snapshot callback result; a JavaScript array has
no `logRes` property, so the batch's `logRes.log` is `undefined`. -/
def snapshotResultLogRes (res : List PutEvent) : Option (List PutEvent) :=
  match res with
  | _ => none

/-- Spec scenario 1: source bucket `bucket1` holding the single object
`object1`, with opaque metadata. -/
def demoSnapshotObjects : List ObjectMd :=
  [{ bucketName := "bucket1", objectKey := "object1", res := "md1" }]

/-- A JavaScript field value that distinguishes an absent property (reads as
`undefined`), an explicit `null`, and a present value. -/
inductive JsField (α : Type)
  | absent
  | nullv
  | val (a : α)
deriving Repr, DecidableEq

/-- The value `getRaftLog` resolves with on its empty/error translation
path. The `log` payload is irrelevant on this path, hence `Unit`. -/
structure RaftLogEmptyResult where
  infoStart : JsField Int
  infoEnd : JsField Int
  log : JsField Unit
deriving Repr, DecidableEq

/-- `IngestionProducer.getRaftLog` error translation (the `recordStream`
error handler, active until the header arrives, hence before any record is
delivered): a transport error with status 404 (no such raft session) or 416
(range not satisfiable) resolves as
`done(null, { info: { start: null, end: null } })` — an object literal with
no `log` property at all — while any other transport error is reported as
`done(errors.InternalError)`. -/
def getRaftLogOnError (statusCode : Int) : Except JsError RaftLogEmptyResult :=
  if statusCode = 404 ∨ statusCode = 416 then
    .ok { infoStart := .nullv, infoEnd := .nullv, log := .absent }
  else
    .error .internalError

/-- The resolved value the spec prescribes for the 404/416 case, written
from the spec's words: `{info:{start:null,end:null}, log:null}`. -/
def specRaftLogEmptyResult : RaftLogEmptyResult :=
  { infoStart := .nullv, infoEnd := .nullv, log := .nullv }

/-- A Coordinator offset write issued by `KafkaBacklogMetrics`. -/
inductive ZkOffsetWrite
  | consumerOffset (partition offset : Int) (groupId : String)
  | topicOffset (partition offset : Int)
deriving Repr, DecidableEq

/-- The per-partition body of `KafkaBacklogMetrics.publishConsumerBacklog`:
after fetching the topic high watermark, the two Coordinator writes are
issued by `async.parallel`, whose task array lists the consumer-group
offset write first and the topic offset write second; neither write is
sequenced after the other's completion. The list is the initiation order. -/
def publishPartitionWrites (groupId : String)
    (partition consumerOffset topicOffset : Int) : List ZkOffsetWrite :=
  [.consumerOffset partition consumerOffset groupId,
   .topicOffset partition topicOffset]

/-- All writes issued by `publishConsumerBacklog` over the consumer's
assigned partitions (`consumerOffsets` pairs each partition with the
consumer position; `topicOffsetOf` is the fetched high watermark). -/
def publishConsumerBacklogWrites (groupId : String)
    (consumerOffsets : List (Int × Int)) (topicOffsetOf : Int → Int) :
    List ZkOffsetWrite :=
  consumerOffsets.flatMap fun p =>
    publishPartitionWrites groupId p.1 p.2 (topicOffsetOf p.1)

/-- Whether a write is the topic-offset write of partition `p`. -/
def isTopicWriteFor (p : Int) : ZkOffsetWrite → Bool
  | .topicOffset q _ => q == p
  | _ => false

/-- Whether a write is a consumer-offset write of partition `p`. -/
def isConsumerWriteFor (p : Int) : ZkOffsetWrite → Bool
  | .consumerOffset q _ _ => q == p
  | _ => false

/-- The claim's ordering property, written from the spec's words: in the
sequence of issued writes, partition `p`'s topic offset is written before
its consumer offset. -/
def topicWrittenBeforeConsumer (writes : List ZkOffsetWrite) (p : Int) :
    Bool :=
  decide (writes.findIdx (isTopicWriteFor p)
    < writes.findIdx (isConsumerWriteFor p))

/-- One consumer-offset sample `{label, offset}` as read back by
`_readOffset` / `_readAllOffsets` (with a `groupId` the list is the
singleton `[{label: groupId, offset}]`). -/
structure ConsumerOffsetInfo where
  label : String
  offset : Int
deriving Repr, DecidableEq

/-- The data `_checkConsumerOffsetsGeneric` reads for one partition: the
partition number, the consumer offsets, and the target offset (the published
topic high watermark for `checkConsumerLag`). -/
structure PartitionOffsets where
  partition : Int
  consumerOffsets : List ConsumerOffsetInfo
  targetOffset : Int
deriving Repr, DecidableEq

/-- The `checkInfo` object returned for the first partition over the lag
limit. -/
structure CheckInfo where
  partition : Int
  groupId : String
  consumerOffset : Int
  lag : Int
deriving Repr, DecidableEq

/-- `lag = targetOffset - consumerOffsetInfo.offset; if (lag < 0) lag = 0`. -/
def computeLag (targetOffset consumerOffset : Int) : Int :=
  if targetOffset - consumerOffset < 0 then 0 else targetOffset - consumerOffset

/-- The per-partition scan of `_checkConsumerOffsetsGeneric`: the `forEach`
records the first consumer whose clamped lag exceeds `maxLag` (the
`!checkInfo` guard keeps the first hit). -/
def checkPartitionOffsets (maxLag : Int) (p : PartitionOffsets) :
    Option CheckInfo :=
  p.consumerOffsets.findSome? fun c =>
    if computeLag p.targetOffset c.offset > maxLag then
      some { partition := p.partition, groupId := c.label,
             consumerOffset := c.offset,
             lag := computeLag p.targetOffset c.offset }
    else none

/-- `_checkConsumerOffsetsGeneric` as used by `checkConsumerLag`: iterate
the partitions in Coordinator-children order (`async.eachSeries`), abort at
the first partition that sets `checkInfo` (via `CheckConditionError`) and
return that info; return success (`none`) when every partition passes. -/
def checkConsumerLag (maxLag : Int) (partitions : List PartitionOffsets) :
    Option CheckInfo :=
  partitions.findSome? (checkPartitionOffsets maxLag)

/-- Spec scenario 5: topic partitions {0, 1}, high watermarks {100, 200},
group `G` offsets {90, 195}. -/
def demoPartitions : List PartitionOffsets :=
  [{ partition := 0, consumerOffsets := [{ label := "G", offset := 90 }],
     targetOffset := 100 },
   { partition := 1, consumerOffsets := [{ label := "G", offset := 195 }],
     targetOffset := 200 }]

/-- The check info `checkConsumerLag(T, G, 5)` reports in spec scenario 5. -/
def demoCheckInfo : CheckInfo :=
  { partition := 0, groupId := "G", consumerOffset := 90, lag := 10 }

/-- A JavaScript value held in an init-state field. -/
inductive JsInitValue
  | undefinedValue
  | nullv
  | boolv (b : Bool)
  | str (s : String)
deriving Repr, DecidableEq

/-- JavaScript truthiness of an init-state field value. -/
def jsTruthy : JsInitValue → Bool
  | .undefinedValue => false
  | .nullv => false
  | .boolv b => b
  | .str s => s != ""

/-- JavaScript `toString()` of an init-state field value (only reached on
truthy values in `_writeInitState`). -/
def jsToString : JsInitValue → String
  | .undefinedValue => "undefined"
  | .nullv => "null"
  | .boolv true => "true"
  | .boolv false => "false"
  | .str s => s

/-- `(initState[pathNode] || 'null').toString()` from
`IngestionReader._writeInitState`: every falsy field is serialized as the
literal string `'null'`. -/
def serializeInitField (v : JsInitValue) : String :=
  if jsTruthy v then jsToString v else "null"

/-- The init-state fields handed to `_writeInitState`. -/
structure InitStateFields where
  isStatusComplete : JsInitValue
  versionMarker : JsInitValue
  keyMarker : JsInitValue
deriving Repr, DecidableEq

/-- The three strings stored on the Coordinator nodes by `_writeInitState`. -/
structure StoredInitNodes where
  isStatusComplete : String
  versionMarker : String
  keyMarker : String
deriving Repr, DecidableEq

/-- `IngestionReader._writeInitState`: one node per field, each serialized
with `serializeInitField`. -/
def writeInitState (s : InitStateFields) : StoredInitNodes :=
  { isStatusComplete := serializeInitField s.isStatusComplete,
    versionMarker := serializeInitField s.versionMarker,
    keyMarker := serializeInitField s.keyMarker }

/-- The object `IngestionReader._readInitState` passes to its callback. -/
structure ReadInitState where
  isStatusComplete : Bool
  versionMarker : String
  keyMarker : String
deriving Repr, DecidableEq

/-- `IngestionReader._readInitState` on stored node data:
`isStatusComplete: isStatusComplete === 'true'`, and the two markers are
returned as the raw stored strings. -/
def readInitState (n : StoredInitNodes) : ReadInitState :=
  { isStatusComplete := n.isStatusComplete == "true",
    versionMarker := n.versionMarker,
    keyMarker := n.keyMarker }

end Backbeat

namespace Backbeat

lemma processSaveLogOffset_le (off : Int) (next : Option Int) :
    off ≤ (processSaveLogOffset off next).logOffset := by
  unfold processSaveLogOffset
  cases next with
  | none => simp
  | some n =>
    by_cases h : n = off
    · simp [h]
    · simp [h]
      by_cases hgt : n > off
      · simp [hgt]
        omega
      · simp [hgt]

lemma runSaveLogOffsets_le (nexts : List (Option Int)) :
    ∀ off : Int, off ≤ runSaveLogOffsets off nexts := by
  induction nexts with
  | nil => intro off; simp [runSaveLogOffsets]
  | cons n rest ih =>
    intro off
    have h1 := processSaveLogOffset_le off n
    have h2 := ih (processSaveLogOffset off n).logOffset
    calc off ≤ (processSaveLogOffset off n).logOffset := h1
      _ ≤ runSaveLogOffsets (processSaveLogOffset off n).logOffset rest := h2
      _ = runSaveLogOffsets off (n :: rest) := by
            simp [runSaveLogOffsets, List.foldl_cons]

/-- C2: amended. Across any sequence of completed batch cycles the reader's
`logOffset` — in memory and as written to the Coordinator — is monotonically
non-decreasing; but the log-offset node is written whenever the staged
`nextLogOffset` exists and merely differs from the current offset (also when
strictly smaller, in which case the unchanged current offset is rewritten),
not only when it is strictly greater. -/
theorem save_log_offset_monotone_write_on_diff (off : Int) (next : Option Int)
    (nexts : List (Option Int)) :
    off ≤ (processSaveLogOffset off next).logOffset
    ∧ off ≤ ((processSaveLogOffset off next).writtenValue.getD off)
    ∧ off ≤ runSaveLogOffsets off nexts
    ∧ ((processSaveLogOffset off next).wroteNode = true
        ↔ ∃ n, next = some n ∧ n ≠ off) := by
  refine ⟨processSaveLogOffset_le off next, ?_, runSaveLogOffsets_le nexts off, ?_⟩
  · unfold processSaveLogOffset
    cases next with
    | none => simp
    | some n =>
      by_cases h : n = off
      · simp [h]
      · simp [h, writeLogOffset]
        by_cases hgt : n > off
        · simp [hgt]; omega
        · simp [hgt]
  · unfold processSaveLogOffset
    cases next with
    | none => simp
    | some n =>
      by_cases h : n = off
      · simp [h]
      · simp [h]

/-- C2: counterexample. With current `logOffset = 5` and a staged
`nextLogOffset = 3`, the checkpoint phase still writes the log-offset node
although the staged value is not strictly greater than the current offset —
refuting "the node is written only when the staged `nextLogOffset` is
strictly greater". -/
theorem save_log_offset_writes_when_smaller :
    (processSaveLogOffset 5 (some 3)).wroteNode = true ∧ ¬ ((3 : Int) > 5) := by
  constructor
  · rfl
  · decide

lemma tailStats_foldl_records (records : List LogRecord) :
    ∀ init : LogStats,
      (records.foldl tailRecordStats init).nbLogRecordsRead
        = init.nbLogRecordsRead + records.length := by
  induction records with
  | nil => intro init; simp
  | cons r rest ih =>
    intro init
    simp only [List.foldl_cons, ih, tailRecordStats, List.length_cons]
    omega

/-- C3: for every tail-phase batch (no snapshot `initState`) whose log
response has `info.start = s` and whose stream delivered the given records,
the staged `nextLogOffset` equals `s + k` where `k` is the number of records,
and each delivered record increments `nbLogRecordsRead` by exactly one. -/
theorem tail_next_log_offset_start_plus_records (s : Int)
    (records : List LogRecord) (stats : LogStats) (record : LogRecord) :
    stageNextLogOffset none (some s) (tailStats records).nbLogRecordsRead
      = some (s + records.length)
    ∧ (tailRecordStats stats record).nbLogRecordsRead
      = stats.nbLogRecordsRead + 1 := by
  constructor
  · have h := tailStats_foldl_records records
      { nbLogRecordsRead := 0, nbLogEntriesRead := 0 }
    simp only [tailStats, h, stageNextLogOffset, jsAddNullable, Option.getD]
    norm_num
  · rfl

/-- C1: the snapshot producer does not supply the captured `cseq` in its
result. On spec scenario 1 (bucket `bucket1`, one object, `cseq = 7` at
snapshot start) the snapshot callback receives only the bare event array;
the reader's `res.initState` and `res.logRes` reads both yield `undefined`,
so the publish phase can never take the `initState.cseq` branch and instead
stages `nextLogOffset = logRes.info.start + nbLogRecordsRead = 1 + 0`,
not the cseq 7 the claim requires. -/
theorem snapshot_result_supplies_no_cseq :
    (snapshot ⟨[]⟩ "zenkobucket" demoSnapshotObjects).2
      = [{ type := "put", bucket := "zenkobucket-bucket1",
           key := "object1", value := "md1" }]
    ∧ snapshotResultInitState
        ((snapshot ⟨[]⟩ "zenkobucket" demoSnapshotObjects).2) = none
    ∧ snapshotResultLogRes
        ((snapshot ⟨[]⟩ "zenkobucket" demoSnapshotObjects).2) = none
    ∧ stageNextLogOffset
        (snapshotResultInitState
          ((snapshot ⟨[]⟩ "zenkobucket" demoSnapshotObjects).2))
        (some 1) 0 = some 1
    ∧ some (1 : Int) ≠ some (7 : Int) := by
  refine ⟨rfl, rfl, rfl, rfl, by decide⟩

/-- C4: on a batch whose log read produced no records (the 404/416 empty
read: `info.start` null, no log, nothing staged, so `entriesToPublish` is
still the empty object created by `processLogEntries`), the publish phase
reads `entriesToPublish[targetZenkoBucket]` — `undefined` — and
`entries.length` throws a `TypeError`: the batch errors out instead of
completing cleanly. (The staged offset would be `null + 0 = 0`.) -/
theorem empty_batch_publish_throws :
    processPublishEntries "zenkobucket" none none
      { nbLogRecordsRead := 0, nbLogEntriesRead := 0 } []
      = .error .typeError
    ∧ stageNextLogOffset none none 0 = some 0 :=
  ⟨rfl, rfl⟩

/-- C6: running `snapshot` twice on the same `IngestionProducer` with an
unchanged bucket does not yield the same event multiset: `resLog` is an
instance field that is never reset, so the second call returns the first
run's event plus a duplicate — two events instead of one. -/
theorem snapshot_twice_duplicates :
    ((snapshot ⟨[]⟩ "zenkobucket" demoSnapshotObjects).2).length = 1
    ∧ ((snapshot (snapshot ⟨[]⟩ "zenkobucket" demoSnapshotObjects).1
        "zenkobucket" demoSnapshotObjects).2).length = 2
    ∧ ¬ ((snapshot ⟨[]⟩ "zenkobucket" demoSnapshotObjects).2).Perm
        ((snapshot (snapshot ⟨[]⟩ "zenkobucket" demoSnapshotObjects).1
          "zenkobucket" demoSnapshotObjects).2) :=
  ⟨rfl, rfl, fun h => absurd h.length_eq (by decide)⟩

/-- C7: counterexample. The 404 response resolves successfully, but the
resolved object is `{info:{start:null,end:null}}` with the `log` property
absent — not the claimed `{info:{start:null,end:null}, log:null}` (an
absent property reads as `undefined`, which is distinguishable from `null`;
the reader's own `logRes.log === null` test never matches it). -/
theorem raft_log_result_log_field_absent_not_null :
    getRaftLogOnError 404
      = .ok { infoStart := .nullv, infoEnd := .nullv, log := .absent }
    ∧ ({ infoStart := .nullv, infoEnd := .nullv, log := .absent }
        : RaftLogEmptyResult) ≠ specRaftLogEmptyResult := by
  exact ⟨rfl, by decide⟩

/-- C7: amended. A 404 or 416 transport response is not reported as an
error: the call resolves successfully, before any record is delivered, with
`{info:{start:null,end:null}}` and no `log` field (so `log` reads as
`undefined`); any other transport error is reported as an
`InternalError` failure. -/
theorem raft_log_404_416_not_an_error (c : Int) :
    (c = 404 ∨ c = 416 → getRaftLogOnError c
      = .ok { infoStart := .nullv, infoEnd := .nullv, log := .absent })
    ∧ (c ≠ 404 → c ≠ 416 → getRaftLogOnError c = .error .internalError) := by
  constructor
  · intro h
    simp [getRaftLogOnError, h]
  · intro h1 h2
    simp [getRaftLogOnError, h1, h2]

/-- C7: witness. The amended theorem applied at status 404 (successful
empty resolution) and at status 500 (failure). -/
theorem raft_log_404_416_not_an_error_witness :
    getRaftLogOnError 404
      = .ok { infoStart := .nullv, infoEnd := .nullv, log := .absent }
    ∧ getRaftLogOnError 500 = .error .internalError :=
  ⟨(raft_log_404_416_not_an_error 404).1 (Or.inl rfl),
   (raft_log_404_416_not_an_error 500).2 (by decide) (by decide)⟩

/-- C8: counterexample. For a partition with consumer position 90 and high
watermark 100, the issued write sequence is consumer-offset first, then
topic offset: the topic high-watermark write does not precede the consumer
write, refuting the claimed ordering. -/
theorem topic_offset_not_written_first :
    publishConsumerBacklogWrites "grp" [(0, 90)] (fun _ => 100)
      = [.consumerOffset 0 90 "grp", .topicOffset 0 100]
    ∧ topicWrittenBeforeConsumer
        (publishConsumerBacklogWrites "grp" [(0, 90)] (fun _ => 100)) 0
      = false := by
  exact ⟨rfl, by decide⟩

/-- C8: amended. For every partition, `publishConsumerBacklog` issues the
two Coordinator writes concurrently via `async.parallel`, with the
consumer-group offset write initiated first and the topic offset write
second; the topic offset is never written (initiated) before the consumer
offset, so a reader of the two nodes may observe a consumer offset newer
than the corresponding topic offset. -/
theorem consumer_offset_write_initiated_first (groupId : String)
    (p c t : Int) :
    publishPartitionWrites groupId p c t
      = [.consumerOffset p c groupId, .topicOffset p t]
    ∧ topicWrittenBeforeConsumer (publishPartitionWrites groupId p c t) p
      = false := by
  refine ⟨rfl, ?_⟩
  simp [topicWrittenBeforeConsumer, publishPartitionWrites,
    List.findIdx_cons, isTopicWriteFor, isConsumerWriteFor]

lemma tailRecordFilterCalls_not_source (sourceBucket targetZenkoBucket : String)
    (record : LogRecord) (h : record.db ≠ some sourceBucket) :
    tailRecordFilterCalls sourceBucket targetZenkoBucket record = .ok [] := by
  unfold tailRecordFilterCalls
  generalize hacc : ([] : List FilterCall) = acc
  clear hacc
  induction record.entries generalizing acc with
  | nil => rfl
  | cons e rest ih =>
    rw [List.foldlM_cons, if_neg h]
    simpa using ih acc

/-- C5: counterexample. For a tail-phase record whose `db` equals neither
special container and whose entry key equals the record's `db` (a bucket
metadata record: `db = 'bucket1'`, `key = 'bucket1'`), the key is not
passed through: the code replaces it with the target bucket
(`zenkobucket`), refuting "otherwise the key is passed through". -/
theorem log_entry_key_not_passed_through :
    processLogEntry "zenkobucket" (some "bucket1")
      { type := some "put", key := some "bucket1", value := some "v1",
        bucket := none }
      = .ok (some { type := some "put", bucket := some "zenkobucket",
                    key := some "zenkobucket", value := some "v1" })
    ∧ some "zenkobucket" ≠ some "bucket1" := by
  exact ⟨rfl, by decide⟩

/-- C5: amended. For every tail-phase record: if `record.db` is
`users..bucket` the entry key is rewritten by splitting on `..|..` and
replacing the suffix with the target bucket; if `record.db` is `metastore`
the key is rewritten by splitting on `/` and replacing the suffix; otherwise
the record's `db` is replaced by the target bucket and the key is passed
through except when it equals the record's `db`, in which case the key is
also replaced by the target bucket. A record produces events only when its
`db` equals the source bucket (which subsumes the claim's disjunction with
the two special containers). -/
theorem log_entry_rewrite_rules (targetZenkoBucket sourceBucket : String) :
    (∀ (t v b : Option String) (k : String),
      processLogEntry targetZenkoBucket (some "users..bucket")
        { type := t, key := some k, value := v, bucket := b }
        = .ok (some { type := t, bucket := some "users..bucket",
                      key := some ((k.splitOn "..|..").headD "" ++ "..|.."
                        ++ targetZenkoBucket),
                      value := v }))
    ∧ (∀ (t v b : Option String) (k : String),
      processLogEntry targetZenkoBucket (some "metastore")
        { type := t, key := some k, value := v, bucket := b }
        = .ok (some { type := t, bucket := some "metastore",
                      key := some ((k.splitOn "/").headD "" ++ "/"
                        ++ targetZenkoBucket),
                      value := v }))
    ∧ (∀ (t v b : Option String) (k db : String),
        db ≠ "users..bucket" → db ≠ "metastore" →
      processLogEntry targetZenkoBucket (some db)
        { type := t, key := some k, value := v, bucket := b }
        = .ok (some { type := t, bucket := some targetZenkoBucket,
                      key := if k = db then some targetZenkoBucket
                             else some k,
                      value := v }))
    ∧ (∀ (record : LogRecord) (fcs : List FilterCall),
        tailRecordFilterCalls sourceBucket targetZenkoBucket record = .ok fcs
        → fcs ≠ [] → record.db = some sourceBucket) := by
  refine ⟨?_, ?_, ?_, ?_⟩
  · intro t v b k
    simp [processLogEntry]
  · intro t v b k
    simp [processLogEntry]
  · intro t v b k db h1 h2
    by_cases hk : k = db
    · simp [processLogEntry, h1, h2, hk]
    · simp [processLogEntry, h1, h2, hk]
  · intro record fcs hok hne
    by_cases hdb : record.db = some sourceBucket
    · exact hdb
    · rw [tailRecordFilterCalls_not_source sourceBucket targetZenkoBucket
        record hdb] at hok
      cases hok
      exact absurd rfl hne

/-- C5: witness. The amended rewrite theorem applied to a concrete
non-special record (`db = 'bucket1'`, key `object1` distinct from `db`),
with both disequality hypotheses discharged. -/
theorem log_entry_rewrite_rules_witness :
    processLogEntry "zenkobucket" (some "bucket1")
      { type := some "put", key := some "object1", value := some "v1",
        bucket := none }
      = .ok (some { type := some "put", bucket := some "zenkobucket",
                    key := if "object1" = "bucket1" then some "zenkobucket"
                           else some "object1",
                    value := some "v1" }) :=
  (log_entry_rewrite_rules "zenkobucket" "bucket1").2.2.1
    (some "put") (some "v1") none "object1" "bucket1"
    (by decide) (by decide)

lemma list_findSome_eq_none_iff {α β : Type} (f : α → Option β) :
    ∀ l : List α, l.findSome? f = none ↔ ∀ x ∈ l, f x = none := by
  intro l
  induction l with
  | nil => simp [List.findSome?]
  | cons a rest ih =>
    simp only [List.findSome?]
    cases hfa : f a with
    | some c =>
      simp only [List.mem_cons]
      constructor
      · intro h
        exact absurd h (by simp)
      · intro h
        exact absurd (h a (Or.inl rfl)) (by simp [hfa])
    | none =>
      simp only [List.mem_cons, ih]
      constructor
      · intro h x hx
        cases hx with
        | inl hx => rw [hx]; exact hfa
        | inr hx => exact h x hx
      · intro h x hx
        exact h x (Or.inr hx)

lemma list_findSome_eq_some_split {α β : Type} (f : α → Option β) :
    ∀ (l : List α) (b : β), l.findSome? f = some b →
      ∃ pre x post, l = pre ++ x :: post
        ∧ (∀ y ∈ pre, f y = none) ∧ f x = some b := by
  intro l
  induction l with
  | nil =>
    intro b h
    simp [List.findSome?] at h
  | cons a rest ih =>
    intro b h
    simp only [List.findSome?] at h
    cases hfa : f a with
    | some c =>
      rw [hfa] at h
      simp only at h
      exact ⟨[], a, rest, by simp, by simp, by rw [hfa, h]⟩
    | none =>
      rw [hfa] at h
      simp only at h
      obtain ⟨pre, x, post, hsplit, hpre, hx⟩ := ih b h
      refine ⟨a :: pre, x, post, by simp [hsplit], ?_, hx⟩
      intro y hy
      cases List.mem_cons.mp hy with
      | inl hy => rw [hy]; exact hfa
      | inr hy => exact hpre y hy

lemma checkPartitionOffsets_eq_none_iff (maxLag : Int) (p : PartitionOffsets) :
    checkPartitionOffsets maxLag p = none
      ↔ ∀ c ∈ p.consumerOffsets,
          computeLag p.targetOffset c.offset ≤ maxLag := by
  unfold checkPartitionOffsets
  rw [list_findSome_eq_none_iff]
  constructor
  · intro h c hc
    have hcc := h c hc
    by_contra hgt
    rw [if_pos (by omega)] at hcc
    exact absurd hcc (by simp)
  · intro h c hc
    rw [if_neg (by have := h c hc; omega)]

lemma checkPartitionOffsets_eq_some_fields (maxLag : Int)
    (p : PartitionOffsets) (info : CheckInfo)
    (h : checkPartitionOffsets maxLag p = some info) :
    info.partition = p.partition ∧ info.lag > maxLag := by
  unfold checkPartitionOffsets at h
  obtain ⟨pre, c, post, hsplit, hpre, hc⟩ :=
    list_findSome_eq_some_split _ p.consumerOffsets info h
  by_cases hgt : computeLag p.targetOffset c.offset > maxLag
  · rw [if_pos hgt] at hc
    cases hc
    exact ⟨rfl, hgt⟩
  · rw [if_neg hgt] at hc
    exact absurd hc (by simp)

/-- C9: `checkConsumerLag` returns success (`none`) exactly when, for every
published partition and every recorded consumer offset,
`max(0, topicOffset - consumerOffset) ≤ maxLag`; otherwise it returns the
check info of the first partition in iteration order whose lag exceeds
`maxLag` (every earlier partition is within the limit, the info names that
partition, and its lag exceeds `maxLag`). -/
theorem check_consumer_lag_success_iff (maxLag : Int)
    (partitions : List PartitionOffsets) :
    (checkConsumerLag maxLag partitions = none
      ↔ ∀ p ∈ partitions, ∀ c ∈ p.consumerOffsets,
          computeLag p.targetOffset c.offset ≤ maxLag)
    ∧ (∀ info, checkConsumerLag maxLag partitions = some info →
        ∃ pre p post, partitions = pre ++ p :: post
          ∧ (∀ q ∈ pre, ∀ c ∈ q.consumerOffsets,
              computeLag q.targetOffset c.offset ≤ maxLag)
          ∧ checkPartitionOffsets maxLag p = some info
          ∧ info.partition = p.partition ∧ info.lag > maxLag) := by
  constructor
  · unfold checkConsumerLag
    rw [list_findSome_eq_none_iff]
    constructor
    · intro h p hp
      exact (checkPartitionOffsets_eq_none_iff maxLag p).mp (h p hp)
    · intro h p hp
      exact (checkPartitionOffsets_eq_none_iff maxLag p).mpr (h p hp)
  · intro info h
    obtain ⟨pre, p, post, hsplit, hpre, hp⟩ :=
      list_findSome_eq_some_split _ partitions info h
    obtain ⟨hpart, hlag⟩ :=
      checkPartitionOffsets_eq_some_fields maxLag p info hp
    exact ⟨pre, p, post, hsplit,
      fun q hq => (checkPartitionOffsets_eq_none_iff maxLag q).mp (hpre q hq),
      hp, hpart, hlag⟩

/-- C9: witness. Spec scenario 5: partitions {0, 1}, high watermarks
{100, 200}, group `G` offsets {90, 195}, `maxLag = 5`: the check reports
partition 0 with lag 10, and the structure of the result follows from the
main theorem applied at this input. -/
theorem check_consumer_lag_success_iff_witness :
    ∃ pre p post, demoPartitions = pre ++ p :: post
      ∧ (∀ q ∈ pre, ∀ c ∈ q.consumerOffsets,
          computeLag q.targetOffset c.offset ≤ 5)
      ∧ checkPartitionOffsets 5 p = some demoCheckInfo
      ∧ demoCheckInfo.partition = p.partition ∧ demoCheckInfo.lag > 5 :=
  (check_consumer_lag_success_iff 5 demoPartitions).2 demoCheckInfo (by decide)

/-- C10: write-then-read of the init state is not the identity on absent or
falsy fields: `_writeInitState` serializes every falsy field (including
`isStatusComplete = false` and absent markers) as the literal string
`'null'`, so a subsequent `_readInitState` returns the string `"null"` for
those markers (not a null value — the markers come back as raw node
strings), and it returns `isStatusComplete = true` exactly when the stored
string equals `'true'`. -/
theorem init_state_falsy_serializes_null (s : InitStateFields)
    (v : JsInitValue) (n : StoredInitNodes) :
    (jsTruthy v = false → serializeInitField v = "null")
    ∧ (jsTruthy s.versionMarker = false →
        (readInitState (writeInitState s)).versionMarker = "null")
    ∧ (jsTruthy s.keyMarker = false →
        (readInitState (writeInitState s)).keyMarker = "null")
    ∧ (readInitState (writeInitState
        { s with isStatusComplete := JsInitValue.boolv false })
        ).isStatusComplete = false
    ∧ ((readInitState n).isStatusComplete = true
        ↔ n.isStatusComplete = "true") := by
  refine ⟨?_, ?_, ?_, ?_, ?_⟩
  · intro h
    simp [serializeInitField, h]
  · intro h
    simp [readInitState, writeInitState, serializeInitField, h]
  · intro h
    simp [readInitState, writeInitState, serializeInitField, h]
  · rfl
  · simp [readInitState]

/-- C10: witness. The round-trip theorem applied to the init state
`{isStatusComplete: false, versionMarker: undefined, keyMarker: null}`. -/
theorem init_state_falsy_serializes_null_witness :
    serializeInitField JsInitValue.undefinedValue = "null"
    ∧ (readInitState (writeInitState
        { isStatusComplete := JsInitValue.boolv false,
          versionMarker := JsInitValue.undefinedValue,
          keyMarker := JsInitValue.nullv })).versionMarker = "null" :=
  ⟨(init_state_falsy_serializes_null
      ⟨.boolv false, .undefinedValue, .nullv⟩ .undefinedValue ⟨"", "", ""⟩).1 rfl,
   (init_state_falsy_serializes_null
      ⟨.boolv false, .undefinedValue, .nullv⟩ .undefinedValue ⟨"", "", ""⟩).2.1 rfl⟩

end Backbeat
